import Mathlib

/-!
Shallow embedding of `src/backend/routers/announcements.py`: a FastAPI router
exposing five operations (list-active, list-all, create, update, delete) over a
MongoDB collection of announcement documents.

Modelling conventions:
* The MongoDB collection is a `Store`: a list of documents plus a counter for
  the next ObjectId the store will assign.  Internally record ids are `Nat`
  (standing for BSON ObjectIds); on the wire an id is a 24-hex-char string,
  parsed by `parseObjectId` (mirroring `bson.ObjectId(announcement_id)`, which
  accepts exactly 24-character hex strings and raises otherwise).
* Each handler takes a `fail : Bool` flag that models the store raising an
  exception at its store accesses (the `try/except Exception` blocks in the
  source); `fail = false` is normal operation.
* Dates travel as strings.  `parseDateYMD` mirrors CPython
  `datetime.strptime(s, "%Y-%m-%d").date()`: `%Y` matches exactly four digits,
  `%m` one or two digits with value 1..12, `%d` one or two digits with value
  1..31, the whole string must be consumed, and `date()` construction further
  requires year >= 1 and the day to exist in the month (leap years per the
  Gregorian rule).  Parsed dates compare lexicographically as (y, m, d),
  exactly as Python `date` objects do.
* Python truthiness of an optional string (`if announcement.start_date:`) is
  `truthy`: `None` and `""` are falsy.
* Pydantic request-model validation (`Field(..., min_length=1, max_length=500)`
  on `message`) runs before the handler body; it is folded into each handler as
  a leading validity check producing `Err.invalidInput`.
* `HTTPException` status codes map to `Err`: 401 `unauthorized`,
  400 `invalidInput`, 404 `notFound`, 500 `internal`.
* The JSON serialization step (`announcement["id"] = str(announcement["_id"])`)
  is identity on the modelled fields and is not repeated here; handlers return
  the documents themselves.
-/

namespace Announcements

/-- The Gregorian leap-year rule used by Python `datetime.date`. -/
def isLeapYear (y : Nat) : Bool :=
  (y % 4 == 0 && y % 100 != 0) || (y % 400 == 0)

/-- Number of days in month `m` of year `y`, as `datetime.date` validates. -/
def daysInMonth (y m : Nat) : Nat :=
  if m == 2 then (if isLeapYear y then 29 else 28)
  else if m == 4 || m == 6 || m == 9 || m == 11 then 30
  else 31

/-- Decimal value of a digit string (as matched by strptime's regexes). -/
def digitsVal (cs : List Char) : Nat :=
  cs.foldl (fun a c => a * 10 + (c.toNat - 48)) 0

/-- All characters are ASCII decimal digits. -/
def allDigits (cs : List Char) : Bool :=
  cs.all (·.isDigit)

/-- Split a character list at dashes (the literal separators of the
`"%Y-%m-%d"` format); like Python `s.split("-")` it always yields at least one
component and empty components between adjacent dashes. -/
def splitDash : List Char → List (List Char)
  | [] => [[]]
  | c :: rest =>
    if c == '-' then [] :: splitDash rest
    else
      match splitDash rest with
      | [] => [[c]]
      | g :: gs => (c :: g) :: gs

/-- Mirrors `datetime.strptime(s, "%Y-%m-%d").date()`: `some (y, m, d)` when the
string parses as a valid calendar date, `none` when strptime or the `date`
constructor raises `ValueError`.  strptime matches `%Y` as exactly four digits
and `%m`/`%d` as one or two digits in range, consuming the whole string; the
`date` constructor then checks year >= 1 and the day against the month. -/
def parseDateYMD (s : String) : Option (Nat × Nat × Nat) :=
  match splitDash s.toList with
  | [yc, mc, dc] =>
    if allDigits yc && yc.length == 4
        && allDigits mc && (mc.length == 1 || mc.length == 2)
        && allDigits dc && (dc.length == 1 || dc.length == 2) then
      let y := digitsVal yc
      let m := digitsVal mc
      let d := digitsVal dc
      if 1 ≤ y ∧ 1 ≤ m ∧ m ≤ 12 ∧ 1 ≤ d ∧ d ≤ daysInMonth y m then
        some (y, m, d)
      else none
    else none
  | _ => none

/-- Strict order on parsed dates: Python `date` comparison is lexicographic on
(year, month, day). -/
def dateLt (a b : Nat × Nat × Nat) : Bool :=
  decide (a.1 < b.1 ∨ (a.1 = b.1 ∧ (a.2.1 < b.2.1 ∨ (a.2.1 = b.2.1 ∧ a.2.2 < b.2.2))))

/-- ASCII hex digit, as `bson.ObjectId` accepts. -/
def isHexDigit (c : Char) : Bool :=
  c.isDigit || (decide ('a' ≤ c) && decide (c ≤ 'f')) || (decide ('A' ≤ c) && decide (c ≤ 'F'))

/-- Value of a hex digit. -/
def hexVal (c : Char) : Nat :=
  if c.isDigit then c.toNat - 48
  else if decide ('a' ≤ c) && decide (c ≤ 'f') then c.toNat - 87
  else c.toNat - 55

/-- Mirrors `ObjectId(announcement_id)` on a wire string: succeeds exactly on
24-character hex strings, yielding the id's numeric value; `none` models the
exception the handlers turn into a 400. -/
def parseObjectId (s : String) : Option Nat :=
  if s.length == 24 && s.toList.all isHexDigit then
    some (s.toList.foldl (fun a c => a * 16 + hexVal c) 0)
  else none

/-- The error kinds the router surfaces, keyed by HTTP status:
401, 400, 404, 500. -/
inductive Err where
  | unauthorized
  | invalidInput
  | notFound
  | internal
deriving DecidableEq, Repr

/-- A stored announcement document.  `start_date = none` models a missing or
null BSON field (the source treats `$exists: False` and `None` alike);
`updated_at`/`updated_by` are absent until the first successful update. -/
structure Doc where
  oid : Nat
  message : String
  start_date : Option String
  expiration_date : String
  created_at : String
  created_by : String
  updated_at : Option String := none
  updated_by : Option String := none
deriving DecidableEq, Repr

/-- The `announcements_collection`: its documents and the next ObjectId the
store will assign on insert. -/
structure Store where
  docs : List Doc
  nextOid : Nat
deriving DecidableEq, Repr

/-- Request body of POST (pydantic model `AnnouncementCreate`). -/
structure AnnouncementCreate where
  message : String
  start_date : Option String
  expiration_date : String
deriving DecidableEq, Repr

/-- Request body of PUT (pydantic model `AnnouncementUpdate`); pydantic maps
both an omitted field and an explicit JSON null to `None`, here `none`. -/
structure AnnouncementUpdate where
  message : Option String := none
  start_date : Option String := none
  expiration_date : Option String := none
deriving DecidableEq, Repr

/-- Python truthiness of `Optional[str]`: `None` and `""` are falsy. -/
def truthy : Option String → Bool
  | none => false
  | some s => !(s == "")

/-- The `$and`/`$or` filter built by `get_active_announcements`:
`expiration_date > today` (string comparison, as MongoDB compares strings)
and (`start_date` missing/null or `start_date <= today`). -/
def activeQuery (today : String) (d : Doc) : Bool :=
  decide (today < d.expiration_date) &&
    (match d.start_date with
     | none => true
     | some s => decide (s ≤ today))

/-- GET /announcements/active.  Any exception (modelled by `fail`) is caught
and an empty list returned. -/
def get_active_announcements (fail : Bool) (store : Store) (today : String) : List Doc :=
  if fail then [] else store.docs.filter (activeQuery today)

/-- The comparator of `.sort("expiration_date", -1)`: descending by
`expiration_date`. -/
def expirationDescLe (a b : Doc) : Bool :=
  decide (b.expiration_date ≤ a.expiration_date)

/-- GET /announcements/all: 401 on empty username, 500 on a store failure,
otherwise the whole collection sorted by `expiration_date` descending. -/
def get_all_announcements (fail : Bool) (store : Store) (username : String) :
    Except Err (List Doc) :=
  if username = "" then .error .unauthorized
  else if fail then .error .internal
  else .ok (store.docs.mergeSort expirationDescLe)

/-- Pydantic validation of `AnnouncementCreate`: `message` has
`min_length=1, max_length=500`. -/
def validCreatePayload (a : AnnouncementCreate) : Bool :=
  decide (1 ≤ a.message.length) && decide (a.message.length ≤ 500)

/-- The `insert_one` step of create: the store assigns `nextOid`, the document
is stamped with `created_at = now` and `created_by = username`. -/
def insertNewDoc (store : Store) (now : String) (a : AnnouncementCreate)
    (username : String) : Except Err Doc × Store :=
  let doc : Doc :=
    { oid := store.nextOid, message := a.message, start_date := a.start_date,
      expiration_date := a.expiration_date, created_at := now, created_by := username }
  (.ok doc, { docs := store.docs ++ [doc], nextOid := store.nextOid + 1 })

/-- POST /announcements/.  Pydantic validates the body first; then the handler
checks the username, parses `expiration_date`, parses `start_date` only when
truthy, rejects `start > expiration`, and inserts. -/
def create_announcement (fail : Bool) (store : Store) (now : String)
    (a : AnnouncementCreate) (username : String) : Except Err Doc × Store :=
  if !(validCreatePayload a) then (.error .invalidInput, store)
  else if username = "" then (.error .unauthorized, store)
  else match parseDateYMD a.expiration_date with
  | none => (.error .invalidInput, store)
  | some expiration =>
    if truthy a.start_date then
      match parseDateYMD (a.start_date.getD "") with
      | none => (.error .invalidInput, store)
      | some start =>
        if dateLt expiration start then (.error .invalidInput, store)
        else if fail then (.error .internal, store)
        else insertNewDoc store now a username
    else if fail then (.error .internal, store)
    else insertNewDoc store now a username

/-- Pydantic validation of `AnnouncementUpdate`: when `message` is supplied it
has `min_length=1, max_length=500`. -/
def validUpdatePayload (a : AnnouncementUpdate) : Bool :=
  match a.message with
  | none => true
  | some m => decide (1 ≤ m.length) && decide (m.length ≤ 500)

/-- The merged `start_date` the update handler validates:
`update_doc.get("start_date", existing.get("start_date"))`. -/
def mergedStart (a : AnnouncementUpdate) (existing : Doc) : Option String :=
  match a.start_date with
  | none => existing.start_date
  | some s => some s

/-- The merged `expiration_date` the update handler validates:
`update_doc.get("expiration_date", existing.get("expiration_date"))`. -/
def mergedExp (a : AnnouncementUpdate) (existing : Doc) : String :=
  a.expiration_date.getD existing.expiration_date

/-- `find_one({"_id": obj_id})`: the first document with the given id. -/
def find_one (store : Store) (oid : Nat) : Option Doc :=
  store.docs.find? (fun d => d.oid == oid)

/-- Replace the first document with the given id by `f` of it. -/
def replaceFirst (docs : List Doc) (oid : Nat) (f : Doc → Doc) : List Doc :=
  match docs with
  | [] => []
  | d :: ds => if d.oid == oid then f d :: ds else d :: replaceFirst ds oid f

/-- The `$set` document of update: supplied fields overwrite, omitted/null
fields are left alone, and `updated_at`/`updated_by` are always set. -/
def setFields (a : AnnouncementUpdate) (now username : String) (d : Doc) : Doc :=
  { d with
    message := a.message.getD d.message,
    start_date := match a.start_date with | none => d.start_date | some s => some s,
    expiration_date := a.expiration_date.getD d.expiration_date,
    updated_at := some now,
    updated_by := some username }

/-- `update_one({"_id": obj_id}, {"$set": ...})`: returns `matched_count` and
the new store. -/
def update_one (store : Store) (oid : Nat) (f : Doc → Doc) : Nat × Store :=
  if store.docs.any (fun d => d.oid == oid) then
    (1, { store with docs := replaceFirst store.docs oid f })
  else (0, store)

/-- The mutation tail of the update handler: `update_one`, 404 when
`matched_count == 0`, then re-read the document with `find_one` and return it
(a vanished document would make `updated["id"]` raise, hence 500). -/
def applyUpdateWrite (fail : Bool) (store : Store) (oid : Nat)
    (a : AnnouncementUpdate) (now username : String) : Except Err Doc × Store :=
  if fail then (.error .internal, store)
  else
    match update_one store oid (setFields a now username) with
    | (0, _) => (.error .notFound, store)
    | (_ + 1, store2) =>
      match find_one store2 oid with
      | some updated => (.ok updated, store2)
      | none => (.error .internal, store2)

/-- PUT /announcements/\x7bannouncement_id\x7d.  Pydantic validates the body;
the handler checks the username, validates the ObjectId, rejects an empty
patch, and when the patch touches a date field it fetches the existing
document (404 if absent), merges patch over existing, and — only when the
merged `start_date` is truthy and the merged `expiration_date` is non-empty —
parses both and rejects `start > expiration`; then it writes. -/
def update_announcement (fail : Bool) (store : Store) (now : String)
    (announcement_id : String) (a : AnnouncementUpdate) (username : String) :
    Except Err Doc × Store :=
  if !(validUpdatePayload a) then (.error .invalidInput, store)
  else if username = "" then (.error .unauthorized, store)
  else match parseObjectId announcement_id with
  | none => (.error .invalidInput, store)
  | some obj_id =>
    if a.message.isNone && a.start_date.isNone && a.expiration_date.isNone then
      (.error .invalidInput, store)
    else if a.start_date.isSome || a.expiration_date.isSome then
      if fail then (.error .internal, store)
      else match find_one store obj_id with
      | none => (.error .notFound, store)
      | some existing =>
        let exp_date : String := mergedExp a existing
        let merged_start : Option String := mergedStart a existing
        if truthy merged_start && !(exp_date == "") then
          match parseDateYMD (merged_start.getD ""), parseDateYMD exp_date with
          | some start, some expiration =>
            if dateLt expiration start then (.error .invalidInput, store)
            else applyUpdateWrite fail store obj_id a now username
          | _, _ => (.error .invalidInput, store)
        else applyUpdateWrite fail store obj_id a now username
    else applyUpdateWrite fail store obj_id a now username

/-- Remove the first document with the given id. -/
def removeFirst (docs : List Doc) (oid : Nat) : List Doc :=
  match docs with
  | [] => []
  | d :: ds => if d.oid == oid then ds else d :: removeFirst ds oid

/-- `delete_one({"_id": obj_id})`: returns `deleted_count` and the new store. -/
def delete_one (store : Store) (oid : Nat) : Nat × Store :=
  if store.docs.any (fun d => d.oid == oid) then
    (1, { store with docs := removeFirst store.docs oid })
  else (0, store)

/-- DELETE /announcements/\x7bannouncement_id\x7d: 401 on empty username, 400 on
a malformed id, 500 on a store failure, 404 when nothing was deleted, else a
success acknowledgment. -/
def delete_announcement (fail : Bool) (store : Store)
    (announcement_id username : String) : Except Err String × Store :=
  if username = "" then (.error .unauthorized, store)
  else match parseObjectId announcement_id with
  | none => (.error .invalidInput, store)
  | some obj_id =>
    if fail then (.error .internal, store)
    else match delete_one store obj_id with
    | (0, _) => (.error .notFound, store)
    | (_ + 1, store2) => (.ok "Announcement deleted successfully", store2)

/-- One PUT request as fired at the store: the failure flag, the `updated_at`
timestamp the handler will take, the wire id, the body and the username. -/
structure UpdateCall where
  fail : Bool
  now : String
  announcement_id : String
  body : AnnouncementUpdate
  username : String

/-- Run a sequence of update requests against the store, keeping each call's
resulting store (responses discarded). -/
def runUpdates (store : Store) : List UpdateCall → Store
  | [] => store
  | c :: rest => runUpdates (update_announcement c.fail store c.now c.announcement_id c.body c.username).2 rest

/-- Every document with id `k` carries a non-null `start_date`. -/
def startPresentFor (k : Nat) (store : Store) : Bool :=
  store.docs.all (fun d => !(d.oid == k) || d.start_date.isSome)

/-- The active filter, characterised field by field. -/
lemma activeQuery_eq_true (today : String) (d : Doc) :
    activeQuery today d = true ↔
      today < d.expiration_date ∧
        (d.start_date = none ∨ ∃ s, d.start_date = some s ∧ s ≤ today) := by
  unfold activeQuery
  cases h : d.start_date with
  | none => simp
  | some s => simp [h]

/-- C1: list-active returns exactly the stored records whose expiration_date is
strictly greater than today and whose start_date is absent/null or at most
today; in particular a record with expiration_date equal to today is excluded
and one with start_date equal to today is included. -/
theorem listActive_exactly_active (store : Store) (today : String) (d : Doc) :
    d ∈ get_active_announcements false store today ↔
      d ∈ store.docs ∧ today < d.expiration_date ∧
        (d.start_date = none ∨ ∃ s, d.start_date = some s ∧ s ≤ today) := by
  show d ∈ store.docs.filter (activeQuery today) ↔ _
  rw [List.mem_filter, activeQuery_eq_true]

/-- C2: under a store failure list-active returns the empty set; by its return
type it surfaces no error at all. -/
theorem listActive_fail_open (store : Store) (today : String) :
    get_active_announcements true store today = [] := rfl

/-- C9: with a non-empty caller, list-all returns the full collection (a
permutation of the stored documents) sorted by expiration_date descending, and
a store failure surfaces as an Internal error. -/
theorem listAll_sorted_desc_and_fail_closed (store : Store) (username : String) :
    (username ≠ "" →
      ∃ l, get_all_announcements false store username = .ok l ∧
        l.Perm store.docs ∧
        List.Pairwise (fun a b : Doc => b.expiration_date ≤ a.expiration_date) l) ∧
    (username ≠ "" → get_all_announcements true store username = .error .internal) := by
  constructor
  · intro h
    refine ⟨store.docs.mergeSort expirationDescLe, ?_, List.mergeSort_perm _ _, ?_⟩
    · simp [get_all_announcements, h]
    · have htrans : ∀ a b c : Doc, expirationDescLe a b = true →
          expirationDescLe b c = true → expirationDescLe a c = true := by
        intro a b c hab hbc
        simp only [expirationDescLe, decide_eq_true_eq] at *
        exact le_trans hbc hab
      have htotal : ∀ a b : Doc, (expirationDescLe a b || expirationDescLe b a) = true := by
        intro a b
        simp only [expirationDescLe, Bool.or_eq_true, decide_eq_true_eq]
        exact le_total b.expiration_date a.expiration_date
      have hs := List.sorted_mergeSort htrans htotal store.docs
      exact hs.imp (fun hab => of_decide_eq_true hab)
  · intro h
    simp [get_all_announcements, h]

/-- C7: list-all, create, update and delete, called with an empty caller, fail
Unauthorized for every store and even when every store access would fail
(`fail` arbitrary), and leave the store untouched: the rejection happens before
any store access. -/
theorem auth_checked_before_store (fail : Bool) (store : Store) (now s : String)
    (c : AnnouncementCreate) (u : AnnouncementUpdate)
    (hc : validCreatePayload c = true) (hu : validUpdatePayload u = true) :
    get_all_announcements fail store "" = .error .unauthorized ∧
    create_announcement fail store now c "" = (.error .unauthorized, store) ∧
    update_announcement fail store now s u "" = (.error .unauthorized, store) ∧
    delete_announcement fail store s "" = (.error .unauthorized, store) := by
  refine ⟨rfl, ?_, ?_, rfl⟩
  · simp [create_announcement, hc]
  · simp [update_announcement, hu]

/-- A deletion removes the first matching document; under distinct ids the
remainder holds no document with the deleted id. -/
lemma removeFirst_no_match (docs : List Doc) (oid : Nat)
    (hnd : (docs.map Doc.oid).Nodup) :
    ∀ e ∈ removeFirst docs oid, e.oid ≠ oid := by
  induction docs with
  | nil => intro e he; simp [removeFirst] at he
  | cons d ds ih =>
    intro e he
    simp only [List.map_cons, List.nodup_cons] at hnd
    rw [removeFirst] at he
    by_cases hd : d.oid = oid
    · rw [if_pos (by simpa using hd)] at he
      intro hoid
      have : e.oid ∈ ds.map Doc.oid := List.mem_map_of_mem Doc.oid he
      rw [hoid, ← hd] at this
      exact hnd.1 this
    · rw [if_neg (by simpa using hd)] at he
      rcases List.mem_cons.mp he with rfl | he2
      · exact hd
      · exact ih hnd.2 e he2

/-- C8: delete fails Unauthorized on an empty caller, InvalidInput on a
malformed id, NotFound when no record matches; on a match it returns the
acknowledgment message, and (with distinct stored ids) a second delete of the
same id fails NotFound. -/
theorem delete_spec (store : Store) (s username : String) :
    (username = "" → delete_announcement false store s username = (.error .unauthorized, store)) ∧
    (username ≠ "" → parseObjectId s = none →
      delete_announcement false store s username = (.error .invalidInput, store)) ∧
    (∀ oid, username ≠ "" → parseObjectId s = some oid →
      (∀ d ∈ store.docs, d.oid ≠ oid) →
      delete_announcement false store s username = (.error .notFound, store)) ∧
    (∀ oid, username ≠ "" → parseObjectId s = some oid →
      (store.docs.map Doc.oid).Nodup → (∃ d ∈ store.docs, d.oid = oid) →
      (delete_announcement false store s username).1 = .ok "Announcement deleted successfully" ∧
      (delete_announcement false (delete_announcement false store s username).2
          s username).1 = .error .notFound) := by
  refine ⟨?_, ?_, ?_, ?_⟩
  · intro h
    simp [delete_announcement, h]
  · intro h hid
    simp [delete_announcement, h, hid]
  · intro oid h hid hnone
    have hany : store.docs.any (fun d => d.oid == oid) = false := by
      simp only [List.any_eq_false, beq_iff_eq]
      exact hnone
    simp [delete_announcement, h, hid, delete_one, hany]
  · intro oid h hid hnd hmem
    have hany : store.docs.any (fun d => d.oid == oid) = true := by
      simp only [List.any_eq_true, beq_iff_eq]
      exact hmem
    have hfirst : delete_announcement false store s username =
        (.ok "Announcement deleted successfully",
         { store with docs := removeFirst store.docs oid }) := by
      simp [delete_announcement, h, hid, delete_one, hany]
    refine ⟨by rw [hfirst], ?_⟩
    rw [hfirst]
    have hany2 : (removeFirst store.docs oid).any (fun d => d.oid == oid) = false := by
      simp only [List.any_eq_false, beq_iff_eq]
      exact removeFirst_no_match store.docs oid hnd
    simp [delete_announcement, h, hid, delete_one, hany2]

/-- Pydantic's length bounds on the create message, unfolded. -/
lemma validCreatePayload_iff (a : AnnouncementCreate) :
    validCreatePayload a = true ↔ 1 ≤ a.message.length ∧ a.message.length ≤ 500 := by
  simp [validCreatePayload]

/-- C3 counterexample: the supplied start_date `""` fails YYYY-MM-DD parsing,
yet create succeeds and persists the record (the handler only parses a truthy
start_date, and `""` is falsy). -/
theorem create_empty_start_accepted :
    parseDateYMD "" = none ∧ truthy (some "") = false ∧
    create_announcement false ⟨[], 0⟩ "T" ⟨"m", some "", "2025-01-01"⟩ "alice" =
      (.ok ⟨0, "m", some "", "2025-01-01", "T", "alice", none, none⟩,
       ⟨[⟨0, "m", some "", "2025-01-01", "T", "alice", none, none⟩], 1⟩) :=
  ⟨rfl, rfl, rfl⟩

/-- C3 (amended): with a non-empty caller, create fails with InvalidInput — and
persists nothing, for any store behaviour — when the message is outside the
1..500 length bounds, when the expiration date fails YYYY-MM-DD parsing, when a
supplied non-empty start_date fails YYYY-MM-DD parsing, or when both dates
parse and start > expiration.  (A supplied empty-string start_date is falsy and
skips date validation, so it is excluded here.) -/
theorem create_invalid_input (fail : Bool) (store : Store) (now : String)
    (a : AnnouncementCreate) (username : String) (hu : username ≠ "")
    (hbad : ¬(1 ≤ a.message.length ∧ a.message.length ≤ 500)
        ∨ parseDateYMD a.expiration_date = none
        ∨ (∃ s, a.start_date = some s ∧ s ≠ "" ∧ parseDateYMD s = none)
        ∨ (∃ s st ex, a.start_date = some s ∧ s ≠ "" ∧ parseDateYMD s = some st ∧
            parseDateYMD a.expiration_date = some ex ∧ dateLt ex st = true)) :
    create_announcement fail store now a username = (.error .invalidInput, store) := by
  by_cases hv : validCreatePayload a = true
  · rcases hbad with hb | hb | hb | hb
    · exact absurd ((validCreatePayload_iff a).mp hv) hb
    · simp [create_announcement, hv, hu, hb]
    · rcases hb with ⟨s, hs, hne, hps⟩
      have ht : truthy (some s) = true := by simp [truthy, hne]
      cases hexp : parseDateYMD a.expiration_date with
      | none => simp [create_announcement, hv, hu, hexp]
      | some ex => simp [create_announcement, hv, hu, hexp, hs, ht, hps]
    · rcases hb with ⟨s, st, ex, hs, hne, hps, hpe, hlt⟩
      have ht : truthy (some s) = true := by simp [truthy, hne]
      simp [create_announcement, hv, hu, hpe, hs, ht, hps, hlt]
  · have hv2 : validCreatePayload a = false := Bool.eq_false_iff.mpr hv
    simp [create_announcement, hv2]

/-- Witness for C3 at the spec's own test vector:
start 2025-06-10 after expiration 2025-06-01. -/
theorem create_invalid_input_witness :
    create_announcement false ⟨[], 0⟩ "T" ⟨"m", some "2025-06-10", "2025-06-01"⟩ "alice" =
      (.error .invalidInput, ⟨[], 0⟩) :=
  create_invalid_input false ⟨[], 0⟩ "T" ⟨"m", some "2025-06-10", "2025-06-01"⟩ "alice"
    (by decide)
    (Or.inr (Or.inr (Or.inr ⟨"2025-06-10", (2025, 6, 10), (2025, 6, 1), rfl, by decide,
      by decide, by decide, by decide⟩)))

/-- A patch touching a date field is not the empty patch. -/
lemma touched_patch_nonempty (a : AnnouncementUpdate)
    (hto : a.start_date.isSome = true ∨ a.expiration_date.isSome = true) :
    (a.message.isNone && a.start_date.isNone && a.expiration_date.isNone) = false := by
  rcases hto with hto | hto
  · cases h : a.start_date with
    | none => rw [h] at hto; simp at hto
    | some v => simp [h]
  · cases h : a.expiration_date with
    | none => rw [h] at hto; simp at hto
    | some v => simp [h]

/-- A patch touching a date field takes the fetch-and-merge branch. -/
lemma touched_patch_bool (a : AnnouncementUpdate)
    (hto : a.start_date.isSome = true ∨ a.expiration_date.isSome = true) :
    (a.start_date.isSome || a.expiration_date.isSome) = true := by
  rcases hto with hto | hto <;> simp [hto]

/-- C4 counterexample: the merged expiration_date `"garbage"` fails YYYY-MM-DD
parsing, yet — because the merged start_date is absent, so the handler's
`if start_date and exp_date` guard is false — update succeeds and stores the
unparseable date instead of failing with InvalidInput. -/
theorem update_garbage_exp_accepted :
    parseDateYMD "garbage" = none ∧
    update_announcement false ⟨[⟨1, "m", none, "2025-01-01", "T0", "bob", none, none⟩], 2⟩
        "T1" "000000000000000000000001" ⟨none, none, some "garbage"⟩ "alice" =
      (.ok ⟨1, "m", none, "garbage", "T0", "bob", some "T1", some "alice"⟩,
       ⟨[⟨1, "m", none, "garbage", "T0", "bob", some "T1", some "alice"⟩], 2⟩) :=
  ⟨rfl, rfl⟩

/-- C4 (amended): with a non-empty caller and pydantic-valid body, update fails
with InvalidInput on a malformed id or an empty patch; when the patch touches a
date field it first fetches the existing record (NotFound if absent) and merges
incoming over existing field-by-field; but the merged pair is validated before
mutation only when the merged start_date is truthy and the merged
expiration_date non-empty — then a parse failure or start > expiration yields
InvalidInput with the store untouched. -/
theorem update_invalid_input (store : Store) (now s : String) (a : AnnouncementUpdate)
    (username : String) (hu : username ≠ "") (hp : validUpdatePayload a = true) :
    (parseObjectId s = none →
      update_announcement false store now s a username = (.error .invalidInput, store)) ∧
    (a.message = none → a.start_date = none → a.expiration_date = none →
      update_announcement false store now s a username = (.error .invalidInput, store)) ∧
    (∀ oid, parseObjectId s = some oid →
      (a.start_date.isSome = true ∨ a.expiration_date.isSome = true) →
      find_one store oid = none →
      update_announcement false store now s a username = (.error .notFound, store)) ∧
    (∀ oid existing, parseObjectId s = some oid →
      (a.start_date.isSome = true ∨ a.expiration_date.isSome = true) →
      find_one store oid = some existing →
      truthy (mergedStart a existing) = true →
      mergedExp a existing ≠ "" →
      ((parseDateYMD ((mergedStart a existing).getD "") = none ∨
        parseDateYMD (mergedExp a existing) = none) →
        update_announcement false store now s a username = (.error .invalidInput, store)) ∧
      (∀ st ex, parseDateYMD ((mergedStart a existing).getD "") = some st →
        parseDateYMD (mergedExp a existing) = some ex → dateLt ex st = true →
        update_announcement false store now s a username = (.error .invalidInput, store))) := by
  refine ⟨?_, ?_, ?_, ?_⟩
  · intro hid
    simp [update_announcement, hp, hu, hid]
  · intro hm hs he
    cases hid : parseObjectId s with
    | none => simp [update_announcement, hp, hu, hid]
    | some oid => simp [update_announcement, hp, hu, hid, hm, hs, he]
  · intro oid hid hto hfind
    have hne := touched_patch_nonempty a hto
    have hto2 := touched_patch_bool a hto
    simp [update_announcement, hp, hu, hid, hne, hto2, hfind]
  · intro oid existing hid hto hfind htr hexne
    have hne := touched_patch_nonempty a hto
    have hto2 := touched_patch_bool a hto
    have hexb : (!(mergedExp a existing == "")) = true := by
      simpa using hexne
    constructor
    · intro hbad
      cases hps : parseDateYMD ((mergedStart a existing).getD "") with
      | none => simp [update_announcement, hp, hu, hid, hne, hto2, hfind, htr, hexb, hps]
      | some st =>
        cases hpe : parseDateYMD (mergedExp a existing) with
        | none => simp [update_announcement, hp, hu, hid, hne, hto2, hfind, htr, hexb, hps, hpe]
        | some ex => rcases hbad with hbad | hbad <;> simp_all
    · intro st ex hps hpe hlt
      simp [update_announcement, hp, hu, hid, hne, hto2, hfind, htr, hexb, hps, hpe, hlt]

/-- Witness for C4: a merged pair with start 2025-06-10 after expiration
2025-06-01 is rejected before mutation. -/
theorem update_invalid_input_witness :
    update_announcement false
        ⟨[⟨1, "m", some "2025-06-01", "2025-12-31", "T0", "bob", none, none⟩], 2⟩
        "T1" "000000000000000000000001" ⟨none, some "2025-06-10", some "2025-06-01"⟩ "alice" =
      (.error .invalidInput,
       ⟨[⟨1, "m", some "2025-06-01", "2025-12-31", "T0", "bob", none, none⟩], 2⟩) :=
  ((update_invalid_input
      ⟨[⟨1, "m", some "2025-06-01", "2025-12-31", "T0", "bob", none, none⟩], 2⟩
      "T1" "000000000000000000000001" ⟨none, some "2025-06-10", some "2025-06-01"⟩ "alice"
      (by decide) rfl).2.2.2 1
      ⟨1, "m", some "2025-06-01", "2025-12-31", "T0", "bob", none, none⟩
      rfl (Or.inl rfl) rfl rfl (by decide)).2
    (2025, 6, 10) (2025, 6, 1) rfl rfl (by decide)

/-- Finding by id commutes with replacing the first match, for id-preserving
edits. -/
lemma find_one_replaceFirst (docs : List Doc) (oid : Nat) (f : Doc → Doc)
    (hf : ∀ d, (f d).oid = d.oid) :
    (replaceFirst docs oid f).find? (fun d => d.oid == oid) =
      (docs.find? (fun d => d.oid == oid)).map f := by
  induction docs with
  | nil => simp [replaceFirst]
  | cons d ds ih =>
    by_cases h : d.oid = oid
    · simp [replaceFirst, h, List.find?_cons, hf]
    · simp [replaceFirst, h, List.find?_cons, ih]

/-- Documents with another id survive replacing the first match. -/
lemma mem_replaceFirst_of_ne (docs : List Doc) (oid : Nat) (f : Doc → Doc)
    (e : Doc) (he : e ∈ docs) (hne : e.oid ≠ oid) :
    e ∈ replaceFirst docs oid f := by
  induction docs with
  | nil => simp at he
  | cons d ds ih =>
    rcases List.mem_cons.mp he with rfl | he2
    · have h : ¬(e.oid = oid) := hne
      simp [replaceFirst, h]
    · by_cases h : d.oid = oid
      · simp [replaceFirst, h]
        exact Or.inr he2
      · simp [replaceFirst, h]
        exact Or.inr (ih he2)

/-- A member of the store after replacing the first match is an old member or
the edit of an old member. -/
lemma mem_replaceFirst (docs : List Doc) (oid : Nat) (f : Doc → Doc)
    (e : Doc) (he : e ∈ replaceFirst docs oid f) :
    e ∈ docs ∨ ∃ d0 ∈ docs, e = f d0 := by
  induction docs with
  | nil => simp [replaceFirst] at he
  | cons d ds ih =>
    rw [replaceFirst] at he
    by_cases h : d.oid = oid
    · rw [if_pos (by simpa using h)] at he
      rcases List.mem_cons.mp he with rfl | he2
      · exact Or.inr ⟨d, List.mem_cons_self d ds, rfl⟩
      · exact Or.inl (List.mem_cons_of_mem d he2)
    · rw [if_neg (by simpa using h)] at he
      rcases List.mem_cons.mp he with rfl | he2
      · exact Or.inl (List.mem_cons_self e ds)
      · rcases ih he2 with h2 | ⟨d0, hd0, rfl⟩
        · exact Or.inl (List.mem_cons_of_mem d h2)
        · exact Or.inr ⟨d0, List.mem_cons_of_mem d hd0, rfl⟩

/-- A successful write-back: the first matching document existed and was
edited by `setFields`, and the returned document is the re-read edit. -/
lemma applyUpdateWrite_ok (store : Store) (oid : Nat) (a : AnnouncementUpdate)
    (now username : String) (d : Doc)
    (h : (applyUpdateWrite false store oid a now username).1 = .ok d) :
    ∃ old, find_one store oid = some old ∧ d = setFields a now username old ∧
      (applyUpdateWrite false store oid a now username).2 =
        ⟨replaceFirst store.docs oid (setFields a now username), store.nextOid⟩ := by
  cases hany : store.docs.any (fun x => x.oid == oid) with
  | false =>
    rw [applyUpdateWrite] at h
    simp [update_one, hany] at h
  | true =>
    obtain ⟨old, hold, hpold⟩ := List.any_eq_true.mp hany
    rcases hf2 : store.docs.find? (fun x => x.oid == oid) with _ | old2
    · rw [List.find?_eq_none] at hf2
      exact absurd hpold (hf2 old hold)
    · have hre : find_one
          (⟨replaceFirst store.docs oid (setFields a now username), store.nextOid⟩ : Store) oid =
          some (setFields a now username old2) := by
        show (replaceFirst store.docs oid (setFields a now username)).find?
          (fun x => x.oid == oid) = _
        rw [find_one_replaceFirst store.docs oid (setFields a now username) (fun x => rfl), hf2]
        rfl
      have hpair : applyUpdateWrite false store oid a now username =
          (.ok (setFields a now username old2),
           ⟨replaceFirst store.docs oid (setFields a now username), store.nextOid⟩) := by
        rw [applyUpdateWrite]
        simp only [Bool.false_eq_true, if_false, update_one, hany, if_true]
        rw [hre]
      rw [hpair] at h
      simp only [Except.ok.injEq] at h
      exact ⟨old2, by rw [find_one, hf2], h.symm, by rw [hpair]⟩

/-- A successful update passed authentication, a well-formed id and every
validation, and its effect is the write-back `applyUpdateWrite`. -/
lemma update_ok_shape (store : Store) (now s : String) (a : AnnouncementUpdate)
    (username : String) (d : Doc)
    (h : (update_announcement false store now s a username).1 = .ok d) :
    ∃ oid, parseObjectId s = some oid ∧
      update_announcement false store now s a username =
        applyUpdateWrite false store oid a now username := by
  by_cases hp : validUpdatePayload a = true
  case neg =>
    have hp2 : validUpdatePayload a = false := Bool.eq_false_iff.mpr hp
    rw [update_announcement] at h
    simp [hp2] at h
  case pos =>
  by_cases hu : username = ""
  · rw [update_announcement] at h
    simp [hp, hu] at h
  · cases hid : parseObjectId s with
    | none =>
      rw [update_announcement] at h
      simp [hp, hu, hid] at h
    | some oid =>
      refine ⟨oid, rfl, ?_⟩
      cases hempty : (a.message.isNone && a.start_date.isNone && a.expiration_date.isNone) with
      | true =>
        rw [update_announcement] at h
        simp [hp, hu, hid, hempty] at h
      | false =>
        cases htouch : (a.start_date.isSome || a.expiration_date.isSome) with
        | false => simp [update_announcement, hp, hu, hid, hempty, htouch]
        | true =>
          cases hfind : find_one store oid with
          | none =>
            rw [update_announcement] at h
            simp [hp, hu, hid, hempty, htouch, hfind] at h
          | some existing =>
            cases hguard : (truthy (mergedStart a existing) &&
                !(mergedExp a existing == "")) with
            | false => simp [update_announcement, hp, hu, hid, hempty, htouch, hfind, hguard]
            | true =>
              cases hps : parseDateYMD ((mergedStart a existing).getD "") with
              | none =>
                rw [update_announcement] at h
                simp [hp, hu, hid, hempty, htouch, hfind, hguard, hps] at h
              | some start =>
                cases hpe : parseDateYMD (mergedExp a existing) with
                | none =>
                  rw [update_announcement] at h
                  simp [hp, hu, hid, hempty, htouch, hfind, hguard, hps, hpe] at h
                | some expiration =>
                  cases hlt : dateLt expiration start with
                  | true =>
                    rw [update_announcement] at h
                    simp [hp, hu, hid, hempty, htouch, hfind, hguard, hps, hpe, hlt] at h
                  | false =>
                    simp [update_announcement, hp, hu, hid, hempty, htouch, hfind,
                      hguard, hps, hpe, hlt]

/-- C5: a successful update edits exactly the supplied fields of the stored
record — omitted fields keep their prior values, `updated_at`/`updated_by` are
set unconditionally — the returned document is the post-update record re-read
from the store, and records with other ids survive untouched. -/
theorem update_patch_semantics (store : Store) (now s : String)
    (a : AnnouncementUpdate) (username : String) (d : Doc)
    (h : (update_announcement false store now s a username).1 = .ok d) :
    ∃ oid old,
      parseObjectId s = some oid ∧
      find_one store oid = some old ∧
      d.oid = old.oid ∧
      d.message = a.message.getD old.message ∧
      d.start_date = mergedStart a old ∧
      d.expiration_date = a.expiration_date.getD old.expiration_date ∧
      d.created_at = old.created_at ∧
      d.created_by = old.created_by ∧
      d.updated_at = some now ∧
      d.updated_by = some username ∧
      find_one (update_announcement false store now s a username).2 oid = some d ∧
      ∀ e ∈ store.docs, e.oid ≠ oid →
        e ∈ (update_announcement false store now s a username).2.docs := by
  obtain ⟨oid, hid, heq⟩ := update_ok_shape store now s a username d h
  rw [heq] at h
  obtain ⟨old, hfind, hd, hstore⟩ := applyUpdateWrite_ok store oid a now username d h
  subst hd
  refine ⟨oid, old, hid, hfind, rfl, rfl, ?_, rfl, rfl, rfl, rfl, rfl, ?_, ?_⟩
  · cases hsd : a.start_date <;> simp [setFields, mergedStart, hsd]
  · rw [heq, hstore]
    show (replaceFirst store.docs oid (setFields a now username)).find?
      (fun x => x.oid == oid) = _
    rw [find_one_replaceFirst store.docs oid (setFields a now username) (fun x => rfl)]
    rw [find_one] at hfind
    rw [hfind]
    rfl
  · intro e he hne
    rw [heq, hstore]
    exact mem_replaceFirst_of_ne store.docs oid (setFields a now username) e he hne

/-- Witness for C5: a message-only update patches the message, keeps the other
fields and stamps the audit fields. -/
theorem update_patch_semantics_witness :
    ∃ oid old,
      parseObjectId "000000000000000000000001" = some oid ∧
      find_one ⟨[⟨1, "m", some "2025-01-01", "2025-12-31", "T0", "bob", none, none⟩], 2⟩ oid =
        some old ∧
      (⟨1, "n", some "2025-01-01", "2025-12-31", "T0", "bob", some "T1", some "alice"⟩ : Doc).oid
        = old.oid ∧
      (⟨1, "n", some "2025-01-01", "2025-12-31", "T0", "bob", some "T1", some "alice"⟩ : Doc).message
        = (some "n").getD old.message ∧
      (⟨1, "n", some "2025-01-01", "2025-12-31", "T0", "bob", some "T1", some "alice"⟩ : Doc).start_date
        = mergedStart ⟨some "n", none, none⟩ old ∧
      (⟨1, "n", some "2025-01-01", "2025-12-31", "T0", "bob", some "T1", some "alice"⟩ : Doc).expiration_date
        = (none : Option String).getD old.expiration_date ∧
      (⟨1, "n", some "2025-01-01", "2025-12-31", "T0", "bob", some "T1", some "alice"⟩ : Doc).created_at
        = old.created_at ∧
      (⟨1, "n", some "2025-01-01", "2025-12-31", "T0", "bob", some "T1", some "alice"⟩ : Doc).created_by
        = old.created_by ∧
      (⟨1, "n", some "2025-01-01", "2025-12-31", "T0", "bob", some "T1", some "alice"⟩ : Doc).updated_at
        = some "T1" ∧
      (⟨1, "n", some "2025-01-01", "2025-12-31", "T0", "bob", some "T1", some "alice"⟩ : Doc).updated_by
        = some "alice" ∧
      find_one (update_announcement false
          ⟨[⟨1, "m", some "2025-01-01", "2025-12-31", "T0", "bob", none, none⟩], 2⟩
          "T1" "000000000000000000000001" ⟨some "n", none, none⟩ "alice").2 oid =
        some ⟨1, "n", some "2025-01-01", "2025-12-31", "T0", "bob", some "T1", some "alice"⟩ ∧
      ∀ e ∈ (⟨[⟨1, "m", some "2025-01-01", "2025-12-31", "T0", "bob", none, none⟩], 2⟩ : Store).docs,
        e.oid ≠ oid →
        e ∈ (update_announcement false
          ⟨[⟨1, "m", some "2025-01-01", "2025-12-31", "T0", "bob", none, none⟩], 2⟩
          "T1" "000000000000000000000001" ⟨some "n", none, none⟩ "alice").2.docs :=
  update_patch_semantics
    ⟨[⟨1, "m", some "2025-01-01", "2025-12-31", "T0", "bob", none, none⟩], 2⟩
    "T1" "000000000000000000000001" ⟨some "n", none, none⟩ "alice"
    ⟨1, "n", some "2025-01-01", "2025-12-31", "T0", "bob", some "T1", some "alice"⟩ rfl

/-- A successful create inserted exactly the stamped document: the input
fields, the store-assigned id `nextOid`, `created_at = now` and
`created_by = username`. -/
lemma create_ok_shape (fail : Bool) (store : Store) (now : String)
    (a : AnnouncementCreate) (username : String) (d : Doc)
    (h : (create_announcement fail store now a username).1 = .ok d) :
    d = ⟨store.nextOid, a.message, a.start_date, a.expiration_date, now, username,
         none, none⟩ ∧
    (create_announcement fail store now a username).2 =
      ⟨store.docs ++ [d], store.nextOid + 1⟩ := by
  by_cases hv : validCreatePayload a = true
  case neg =>
    have hv2 : validCreatePayload a = false := Bool.eq_false_iff.mpr hv
    rw [create_announcement] at h
    simp [hv2] at h
  case pos =>
  by_cases hu : username = ""
  · rw [create_announcement] at h
    simp [hv, hu] at h
  · cases hpe : parseDateYMD a.expiration_date with
    | none =>
      rw [create_announcement] at h
      simp [hv, hu, hpe] at h
    | some expiration =>
      cases hfail : fail with
      | true =>
        subst hfail
        rw [create_announcement] at h
        cases ht : truthy a.start_date with
        | false => simp [hv, hu, hpe, ht] at h
        | true =>
          cases hps : parseDateYMD (a.start_date.getD "") with
          | none => simp [hv, hu, hpe, ht, hps] at h
          | some start =>
            cases hlt : dateLt expiration start with
            | true => simp [hv, hu, hpe, ht, hps, hlt] at h
            | false => simp [hv, hu, hpe, ht, hps, hlt] at h
      | false =>
        subst hfail
        cases ht : truthy a.start_date with
        | false =>
          have hpair : create_announcement false store now a username =
              insertNewDoc store now a username := by
            simp [create_announcement, hv, hu, hpe, ht]
          rw [hpair] at h ⊢
          rw [insertNewDoc] at h ⊢
          simp only [Except.ok.injEq] at h
          exact ⟨h.symm, by rw [h]⟩
        | true =>
          cases hps : parseDateYMD (a.start_date.getD "") with
          | none =>
            rw [create_announcement] at h
            simp [hv, hu, hpe, ht, hps] at h
          | some start =>
            cases hlt : dateLt expiration start with
            | true =>
              rw [create_announcement] at h
              simp [hv, hu, hpe, ht, hps, hlt] at h
            | false =>
              have hpair : create_announcement false store now a username =
                  insertNewDoc store now a username := by
                simp [create_announcement, hv, hu, hpe, ht, hps, hlt]
              rw [hpair] at h ⊢
              rw [insertNewDoc] at h ⊢
              simp only [Except.ok.injEq] at h
              exact ⟨h.symm, by rw [h]⟩

/-- C6: after a successful create, list-all with any non-empty caller yields a
list containing the created record, whose message, start_date and
expiration_date equal the create input and which carries the store-assigned
id, the creation timestamp and the creating caller. -/
theorem create_then_listAll_roundtrip (store : Store) (now : String)
    (a : AnnouncementCreate) (creator viewer : String) (d : Doc)
    (hok : (create_announcement false store now a creator).1 = .ok d)
    (hv : viewer ≠ "") :
    ∃ l, get_all_announcements false (create_announcement false store now a creator).2 viewer
        = .ok l ∧
      d ∈ l ∧ d.message = a.message ∧ d.start_date = a.start_date ∧
      d.expiration_date = a.expiration_date ∧ d.oid = store.nextOid ∧
      d.created_at = now ∧ d.created_by = creator := by
  obtain ⟨hd, hs⟩ := create_ok_shape false store now a creator d hok
  refine ⟨((create_announcement false store now a creator).2.docs).mergeSort expirationDescLe,
    ?_, ?_, ?_, ?_, ?_, ?_, ?_, ?_⟩
  · simp [get_all_announcements, hv]
  · rw [List.mem_mergeSort, hs]
    simp
  · rw [hd]
  · rw [hd]
  · rw [hd]
  · rw [hd]
  · rw [hd]
  · rw [hd]

/-- Witness for C6: create on an empty store, then list-all as another user. -/
theorem create_then_listAll_roundtrip_witness :
    ∃ l, get_all_announcements false
        (create_announcement false ⟨[], 7⟩ "T" ⟨"hello", some "2025-06-01", "2025-12-31"⟩
          "alice").2 "bob" = .ok l ∧
      (⟨7, "hello", some "2025-06-01", "2025-12-31", "T", "alice", none, none⟩ : Doc) ∈ l ∧
      (⟨7, "hello", some "2025-06-01", "2025-12-31", "T", "alice", none, none⟩ : Doc).message
        = "hello" ∧
      (⟨7, "hello", some "2025-06-01", "2025-12-31", "T", "alice", none, none⟩ : Doc).start_date
        = some "2025-06-01" ∧
      (⟨7, "hello", some "2025-06-01", "2025-12-31", "T", "alice", none, none⟩ : Doc).expiration_date
        = "2025-12-31" ∧
      (⟨7, "hello", some "2025-06-01", "2025-12-31", "T", "alice", none, none⟩ : Doc).oid
        = (⟨[], 7⟩ : Store).nextOid ∧
      (⟨7, "hello", some "2025-06-01", "2025-12-31", "T", "alice", none, none⟩ : Doc).created_at
        = "T" ∧
      (⟨7, "hello", some "2025-06-01", "2025-12-31", "T", "alice", none, none⟩ : Doc).created_by
        = "alice" :=
  create_then_listAll_roundtrip ⟨[], 7⟩ "T" ⟨"hello", some "2025-06-01", "2025-12-31"⟩
    "alice" "bob" ⟨7, "hello", some "2025-06-01", "2025-12-31", "T", "alice", none, none⟩
    rfl (by decide)

/-- The `$set` document never maps a present start_date to null: a null/omitted
patch field is excluded from the patch and a supplied one writes a string. -/
lemma setFields_start_isSome (a : AnnouncementUpdate) (now username : String)
    (d : Doc) (h : d.start_date.isSome = true) :
    (setFields a now username d).start_date.isSome = true := by
  cases hs : a.start_date <;> simp [setFields, hs, h]

/-- The write-back either leaves the collection alone or replaces the first
matching document by its `setFields` edit. -/
lemma applyUpdateWrite_docs (fail : Bool) (store : Store) (oid : Nat)
    (a : AnnouncementUpdate) (now username : String) :
    (applyUpdateWrite fail store oid a now username).2.docs = store.docs ∨
    (applyUpdateWrite fail store oid a now username).2.docs =
      replaceFirst store.docs oid (setFields a now username) := by
  rw [applyUpdateWrite]
  cases fail with
  | true => exact Or.inl rfl
  | false =>
    cases hany : store.docs.any (fun x => x.oid == oid) with
    | false => simp [update_one, hany]
    | true =>
      simp only [update_one, hany, if_true, Bool.false_eq_true, if_false]
      cases find_one
          (⟨replaceFirst store.docs oid (setFields a now username), store.nextOid⟩ : Store)
          oid with
      | none => exact Or.inr rfl
      | some u => exact Or.inr rfl

/-- Any update call leaves the collection alone or replaces the first document
matching some id by its `setFields` edit. -/
lemma update_docs_cases (fail : Bool) (store : Store) (now s : String)
    (a : AnnouncementUpdate) (username : String) :
    (update_announcement fail store now s a username).2.docs = store.docs ∨
    ∃ oid, (update_announcement fail store now s a username).2.docs =
      replaceFirst store.docs oid (setFields a now username) := by
  by_cases hp : validUpdatePayload a = true
  case neg =>
    have hp2 : validUpdatePayload a = false := Bool.eq_false_iff.mpr hp
    simp [update_announcement, hp2]
  case pos =>
  by_cases hu : username = ""
  · simp [update_announcement, hp, hu]
  · cases hid : parseObjectId s with
    | none => simp [update_announcement, hp, hu, hid]
    | some oid =>
      cases hempty : (a.message.isNone && a.start_date.isNone && a.expiration_date.isNone) with
      | true => simp [update_announcement, hp, hu, hid, hempty]
      | false =>
        cases htouch : (a.start_date.isSome || a.expiration_date.isSome) with
        | false =>
          have hred : update_announcement fail store now s a username =
              applyUpdateWrite fail store oid a now username := by
            simp [update_announcement, hp, hu, hid, hempty, htouch]
          rw [hred]
          exact (applyUpdateWrite_docs fail store oid a now username).imp id
            (fun h => ⟨oid, h⟩)
        | true =>
          cases fail with
          | true => simp [update_announcement, hp, hu, hid, hempty, htouch]
          | false =>
            cases hfind : find_one store oid with
            | none => simp [update_announcement, hp, hu, hid, hempty, htouch, hfind]
            | some existing =>
              cases hguard : (truthy (mergedStart a existing) &&
                  !(mergedExp a existing == "")) with
              | false =>
                have hred : update_announcement false store now s a username =
                    applyUpdateWrite false store oid a now username := by
                  simp [update_announcement, hp, hu, hid, hempty, htouch, hfind, hguard]
                rw [hred]
                exact (applyUpdateWrite_docs false store oid a now username).imp id
                  (fun h => ⟨oid, h⟩)
              | true =>
                cases hps : parseDateYMD ((mergedStart a existing).getD "") with
                | none =>
                  simp [update_announcement, hp, hu, hid, hempty, htouch, hfind, hguard, hps]
                | some start =>
                  cases hpe : parseDateYMD (mergedExp a existing) with
                  | none =>
                    simp [update_announcement, hp, hu, hid, hempty, htouch, hfind, hguard,
                      hps, hpe]
                  | some expiration =>
                    cases hlt : dateLt expiration start with
                    | true =>
                      simp [update_announcement, hp, hu, hid, hempty, htouch, hfind, hguard,
                        hps, hpe, hlt]
                    | false =>
                      have hred : update_announcement false store now s a username =
                          applyUpdateWrite false store oid a now username := by
                        simp [update_announcement, hp, hu, hid, hempty, htouch, hfind,
                          hguard, hps, hpe, hlt]
                      rw [hred]
                      exact (applyUpdateWrite_docs false store oid a now username).imp id
                        (fun h => ⟨oid, h⟩)

/-- One update call preserves "the record `k` has a non-null start_date". -/
lemma update_preserves_startPresent (fail : Bool) (store : Store) (now s : String)
    (a : AnnouncementUpdate) (username : String) (k : Nat)
    (h : startPresentFor k store = true) :
    startPresentFor k (update_announcement fail store now s a username).2 = true := by
  rcases update_docs_cases fail store now s a username with hdocs | ⟨oid, hdocs⟩
  · rw [startPresentFor, hdocs]
    exact h
  · rw [startPresentFor, hdocs]
    rw [startPresentFor, List.all_eq_true] at h
    rw [List.all_eq_true]
    intro e he
    rcases mem_replaceFirst store.docs oid (setFields a now username) e he with
      he2 | ⟨d0, hd0, rfl⟩
    · exact h e he2
    · have h0 := h d0 hd0
      simp only [Bool.or_eq_true, Bool.not_eq_eq_eq_not, Bool.not_true, beq_eq_false_iff_ne,
        ne_eq] at h0 ⊢
      rcases h0 with hne | hsome
      · exact Or.inl hne
      · exact Or.inr (setFields_start_isSome a now username d0 hsome)

/-- C10: a patch field supplied as null is excluded from the `$set` document
just like an omitted one, so updates can never null a field: once the record
with id `k` has a non-null start_date, it still has one after any sequence of
update calls. -/
theorem updates_never_clear_start_date (reqs : List UpdateCall) (store : Store)
    (k : Nat) (h : startPresentFor k store = true) :
    startPresentFor k (runUpdates store reqs) = true := by
  induction reqs generalizing store with
  | nil => exact h
  | cons c rest ih =>
    rw [runUpdates]
    exact ih _ (update_preserves_startPresent c.fail store c.now c.announcement_id
      c.body c.username k h)

/-- Witness for C10: a record with a start_date keeps one through a sequence of
updates, one of which supplies null dates and one a new expiration. -/
theorem updates_never_clear_start_date_witness :
    startPresentFor 1 (runUpdates
      ⟨[⟨1, "m", some "2025-01-01", "2025-12-31", "T0", "bob", none, none⟩], 2⟩
      [⟨false, "T1", "000000000000000000000001", ⟨some "n", none, none⟩, "alice"⟩,
       ⟨false, "T2", "000000000000000000000001", ⟨none, none, some "2026-01-01"⟩, "alice"⟩]) =
      true :=
  updates_never_clear_start_date
    [⟨false, "T1", "000000000000000000000001", ⟨some "n", none, none⟩, "alice"⟩,
     ⟨false, "T2", "000000000000000000000001", ⟨none, none, some "2026-01-01"⟩, "alice"⟩]
    ⟨[⟨1, "m", some "2025-01-01", "2025-12-31", "T0", "bob", none, none⟩], 2⟩
    1 (by decide)

/-- Witness for C7 at concrete requests. -/
theorem auth_checked_before_store_witness :
    get_all_announcements true ⟨[], 0⟩ "" = .error .unauthorized ∧
    create_announcement true ⟨[], 0⟩ "T" ⟨"m", none, "2025-01-01"⟩ "" =
      (.error .unauthorized, ⟨[], 0⟩) ∧
    update_announcement true ⟨[], 0⟩ "T" "x" ⟨some "m", none, none⟩ "" =
      (.error .unauthorized, ⟨[], 0⟩) ∧
    delete_announcement true ⟨[], 0⟩ "x" "" = (.error .unauthorized, ⟨[], 0⟩) :=
  auth_checked_before_store true ⟨[], 0⟩ "T" "x" ⟨"m", none, "2025-01-01"⟩
    ⟨some "m", none, none⟩ (by decide) (by decide)

end Announcements
